import Mathlib

/-!
Shallow embedding of the middle-click radial overlay subsystem of TagStudio:
the production widget `MiddleClickOverlay` (middle_click_overlay.py) and the
testbed widget `MiddleClickDemo` (middle_click_demo.py).

Modelling conventions: Python floats are rationals (`ℚ`) except for angles,
which are reals; pixel coordinates are integers (`ℤ`); Python `int(x)` is
truncation toward zero; Python `//` on integers is floor division, which is
Lean's `Int` division; `QRect.contains` is inclusive of `right = x + w - 1`
and `bottom = y + h - 1`.  The widget's mutable attributes are gathered in
an explicit state record and each Qt event handler becomes a state-passing
function.
-/

namespace MiddleClick

/-- Python `int(x)` applied to a rational: truncation toward zero. -/
def pyInt (q : ℚ) : ℤ := if q < 0 then ⌈q⌉ else ⌊q⌋

/-- The rectangle type `QRect(x, y, w, h)` with integer coordinates. -/
structure IRect where
  x : ℤ
  y : ℤ
  w : ℤ
  h : ℤ
  deriving DecidableEq, Repr

/-- Qt's `QRect.contains(QPoint)`: the point lies between `left = x` and
`right = x + w - 1` and between `top = y` and `bottom = y + h - 1`,
all bounds inclusive. -/
def IRect.containsP (r : IRect) (p : ℤ × ℤ) : Bool :=
  decide (r.x ≤ p.1) && decide (p.1 ≤ r.x + r.w - 1) &&
  decide (r.y ≤ p.2) && decide (p.2 ≤ r.y + r.h - 1)

/-- The guard `max(1e-6, duration)` both widgets apply to a configured
duration before dividing by it (`max(1e-6, self.anim_in_duration)` and
`max(1e-6, self.anim_out_duration)`). -/
def guardDur (d : ℚ) : ℚ := max (1/1000000) d

/-- The normalized time fraction `t = min(1.0, elapsed / max(1e-6, d))`
used by both the entry and the exit animation of both widgets. -/
def tFrac (elapsed d : ℚ) : ℚ := min 1 (elapsed / guardDur d)

/-- Entry progress computed each paint while not closing, in
`MiddleClickOverlay.paintEvent` and in the demo's forward branch:
`prog = 1 - pow(1 - t, 3)` (cubic ease-out). -/
def enteringProgress (elapsed d : ℚ) : ℚ := 1 - (1 - tFrac elapsed d)^3

/-- Closing progress computed each paint in `MiddleClickOverlay.paintEvent`
while `self._closing`:
`prog = pow(max(0.0, 1.0 - t_out), 3)` with
`t_out = min(1.0, closing_elapsed / max(1e-6, self.anim_out_duration))`.
The curve restarts from 1 and does not read the progress an effect held
when closing began. -/
def closingProgressOverlay (closingElapsed d : ℚ) : ℚ :=
  (max 0 (1 - tFrac closingElapsed d))^3

/-- Closing progress of the demo widget's reverse branch in
`MiddleClickDemo.paintEvent`: `prog = max(0.0, start_p * (1.0 - frac))`,
a linear decay from the captured `reverse_progress_start`. -/
def demoClosingProgress (startP revElapsed d : ℚ) : ℚ :=
  max 0 (startP * (1 - tFrac revElapsed d))

/-- Angle list built by `MiddleClickOverlay.show_at` (the demo's
`mousePressEvent` is identical): `count = max(1, len(options))`; one option
sits on the baseline (the `atan2` direction from the click point toward the
widget center); otherwise
`angles[i] = baseline - sector/2 + sector*i/(count-1)` with
`sector = math.pi`.  The field is kept abstract so the definition is
executable; theorems instantiate `K := ℝ` and `pi := Real.pi`. -/
def showAtAngles {K : Type} [Field K] (pi baseline : K) (numOptions : ℕ) : List K :=
  let count := max 1 numOptions
  if count = 1 then [baseline]
  else (List.range count).map
    (fun (i : ℕ) => baseline - pi/2 + pi * (i : K) / ((count - 1 : ℕ) : K))

/-- Base travel distance in `MiddleClickOverlay.paintEvent`:
`min(max(80, min(rw, rh) // 4), 140)`. -/
def overlayBaseDist (rw rh : ℤ) : ℤ := min (max 80 (min rw rh / 4)) 140

/-- One effect's rendered rectangle in `MiddleClickOverlay.paintEvent`
(the lines computing `cx, cy, w, h, x, y`).  `c` and `s` stand for
`math.cos(angle)` and `math.sin(angle)`.  The production overlay applies
no bounds check: the rectangle is used where computed. -/
def overlayRect (ex ey : ℤ) (c s prog : ℚ) (tw th rw rh : ℤ) : IRect :=
  let dist : ℚ := (overlayBaseDist rw rh : ℚ) * prog
  let cx := pyInt ((ex : ℚ) + c * dist)
  let cy := pyInt ((ey : ℚ) + s * dist)
  let w := pyInt ((tw : ℚ) * (6/10 + 4/10 * prog))
  let h := pyInt ((th : ℚ) * (6/10 + 4/10 * prog))
  ⟨cx - w / 2, cy - h / 2, w, h⟩

/-- The fixed screen-edge margin of the demo widget's bounds check. -/
def demoMargin : ℤ := 12

/-- The demo's base travel distance:
`max_radius = max(80, min(rw, rh) // 4)`, then `min(max_radius, 120)`. -/
def demoBaseDist (rw rh : ℤ) : ℤ := min (max 80 (min rw rh / 4)) 120

/-- The demo's rendered width or height:
`max(8, int(target * (0.6 + 0.4 * prog)))`. -/
def demoSize (target : ℤ) (prog : ℚ) : ℤ :=
  max 8 (pyInt ((target : ℚ) * (6/10 + 4/10 * prog)))

/-- The raw (pre-bounds-check) rectangle of `MiddleClickDemo.paintEvent`
(`x_test`, `y_test`, `w`, `h`). -/
def demoRawRect (ex ey : ℤ) (c s prog : ℚ) (tw th rw rh : ℤ) : IRect :=
  let dist : ℚ := (demoBaseDist rw rh : ℚ) * prog
  let cx := pyInt ((ex : ℚ) + c * dist)
  let cy := pyInt ((ey : ℚ) + s * dist)
  let w := demoSize tw prog
  let h := demoSize th prog
  ⟨cx - w / 2, cy - h / 2, w, h⟩

/-- The demo's `out_of_bounds` test: any side of the rectangle crosses the
container bounds shrunk by `margin = 12`. -/
def demoOutOfBounds (r : IRect) (rw rh : ℤ) : Bool :=
  decide (r.x < demoMargin) || decide (r.y < demoMargin) ||
  decide (r.x + r.w > rw - demoMargin) || decide (r.y + r.h > rh - demoMargin)

/-- Propositional in-bounds statement matching the negation of
`demoOutOfBounds`. -/
def demoInBounds (r : IRect) (rw rh : ℤ) : Prop :=
  demoMargin ≤ r.x ∧ demoMargin ≤ r.y ∧
  r.x + r.w ≤ rw - demoMargin ∧ r.y + r.h ≤ rh - demoMargin

instance (r : IRect) (rw rh : ℤ) : Decidable (demoInBounds r rw rh) := by
  unfold demoInBounds; infer_instance

/-- The demo's flipped rectangle: position recomputed with
`new_angle = angle + math.pi`, which replaces `(cos θ, sin θ)` by
`(-cos θ, -sin θ)` (`Real.cos_add_pi`, `Real.sin_add_pi`). -/
def demoFlippedRect (ex ey : ℤ) (c s prog : ℚ) (tw th rw rh : ℤ) : IRect :=
  demoRawRect ex ey (-c) (-s) prog tw th rw rh

/-- The demo's position clamp applied after the flip:
`x_test = min(max(margin, x_test), rw - margin - w)` and likewise for `y`;
width and height are unchanged. -/
def demoClampRect (r : IRect) (rw rh : ℤ) : IRect :=
  ⟨min (max demoMargin r.x) (rw - demoMargin - r.w),
   min (max demoMargin r.y) (rh - demoMargin - r.h), r.w, r.h⟩

/-- The rectangle finally drawn by `MiddleClickDemo.paintEvent`: the raw
rectangle when in bounds; otherwise the flipped rectangle with its position
clamped.  (The code's closing `x = cx - w // 2` recomputation is the
identity in both branches, because in the flip branch `cx` was rebuilt as
`x_test + w // 2` from the clamped `x_test`.) -/
def demoRect (ex ey : ℤ) (c s prog : ℚ) (tw th rw rh : ℤ) : IRect :=
  let raw := demoRawRect ex ey c s prog tw th rw rh
  if demoOutOfBounds raw rw rh then
    demoClampRect (demoFlippedRect ex ey c s prog tw th rw rh) rw rh
  else raw

/-- Per-option animation entry, the dict built per option in
`MiddleClickOverlay.show_at`: fixed center, direction cosine and sine,
creation time `start`, last computed `progress`, target size (the overlay
always stores `target_w = 100`, `target_h = 36`). -/
structure Eff where
  ex : ℤ
  ey : ℤ
  c : ℚ
  s : ℚ
  start : ℚ
  progress : ℚ
  tw : ℤ
  th : ℤ
  deriving DecidableEq, Repr

/-- The mutable attributes of one `MiddleClickOverlay` widget.  `visible`
is false once the widget has been closed (`closeEvent` has run).  `width`
and `height` are the widget geometry used by `paintEvent`. -/
structure OverlayState where
  numOptions : ℕ
  center : Option (ℤ × ℤ)
  centerGlobal : Option (ℤ × ℤ)
  effects : List Eff
  hitRegions : List (IRect × ℕ)
  closing : Bool
  closingStart : Option ℚ
  animInDuration : ℚ
  animOutDuration : ℚ
  animEnabled : Bool
  animOutEnabled : Bool
  animTimerActive : Bool
  leaveTimerActive : Bool
  leaveDistance : ℤ
  width : ℤ
  height : ℤ
  visible : Bool
  deriving DecidableEq, Repr

/-- Model of `MiddleClickOverlay.closeEvent`: clears the effects and hit regions,
stops both timers and hides the widget.  (The single-instance registry
guard of `closeEvent` is modelled separately by `coordClose`.) -/
def closeNow (s : OverlayState) : OverlayState :=
  { s with effects := [], hitRegions := [], animTimerActive := false,
           leaveTimerActive := false, visible := false }

/-- Model of `MiddleClickOverlay._start_close`: a no-op when already closing;
an immediate close when the exit animation or animation as a whole is
disabled; otherwise records the closing start time and ensures the
animation timer runs. -/
def startClose (now : ℚ) (s : OverlayState) : OverlayState :=
  if s.closing then s
  else if s.animOutEnabled = false ∨ s.animEnabled = false then closeNow s
  else { s with closing := true, closingStart := some now, animTimerActive := true }

/-- Result of invoking an option's callback: it returns normally or raises. -/
inductive CbRes where
  | ok
  | raised
  deriving DecidableEq, Repr

/-- The hit-region scan of `MiddleClickOverlay.mouseReleaseEvent`: the
first `(rect, idx)` entry, in list (= paint) order, whose rectangle holds
the click point and whose `idx` satisfies `0 <= idx < len(self.options)`
wins. -/
def hitFirst (numOpts : ℕ) : List (IRect × ℕ) → (ℤ × ℤ) → Option ℕ
  | [], _ => none
  | (r, idx) :: rest, p =>
      if r.containsP p = true ∧ idx < numOpts then some idx
      else hitFirst numOpts rest p

/-- Model of `MiddleClickOverlay.mouseReleaseEvent` for a left-button release at `p`.
`cbs idx` is the outcome of invoking option `idx`'s callback (`none` models
a falsy callback, which is skipped).  On a hit the callback is invoked
inside try/except — a raising callback only produces a log entry — and the
widget is closed immediately; on a miss `_start_close` runs.  Returns the
new state, the index whose action fired (if any) and the log entries. -/
def mouseRelease (now : ℚ) (cbs : ℕ → Option CbRes) (s : OverlayState)
    (p : ℤ × ℤ) : OverlayState × Option ℕ × List String :=
  match hitFirst s.numOptions s.hitRegions p with
  | some idx =>
      let logs := match cbs idx with
        | some CbRes.raised => ["option callback failed"]
        | _ => []
      (closeNow s, some idx, logs)
  | none => (startClose now s, none, [])

/-- Progress computed for one effect during `MiddleClickOverlay.paintEvent`.
The source's `(self._closing_start or now)` falls back to `now` when no
closing start is recorded. -/
def effProgress (s : OverlayState) (now : ℚ) (e : Eff) : ℚ :=
  if s.closing then
    if s.animOutEnabled = false then 0
    else closingProgressOverlay (now - s.closingStart.getD now) s.animOutDuration
  else if s.animEnabled then enteringProgress (now - e.start) s.animInDuration
  else 1

/-- Whether one effect keeps `still_running` true in
`MiddleClickOverlay.paintEvent`: while closing, `t_out < 1.0` (only when
the exit animation is enabled); while entering, `prog < 1.0` (only when
animation is enabled). -/
def effStill (s : OverlayState) (now : ℚ) (e : Eff) : Bool :=
  if s.closing then
    s.animOutEnabled &&
      decide (tFrac (now - s.closingStart.getD now) s.animOutDuration < 1)
  else
    s.animEnabled && decide (effProgress s now e < 1)

/-- The rectangle recorded as hit region for one effect during
`MiddleClickOverlay.paintEvent`. -/
def effRect (s : OverlayState) (now : ℚ) (e : Eff) : IRect :=
  overlayRect e.ex e.ey e.c e.s (effProgress s now e) e.tw e.th s.width s.height

/-- Model of `MiddleClickOverlay.paintEvent` as a state transition: a no-op when no
center is set; otherwise recomputes every effect's progress, rebuilds the
hit regions in paint order, and — when nothing is still running and the
animation timer was active — stops the timer, closing the widget for real
if the exit animation had been playing. -/
def paintStep (now : ℚ) (s : OverlayState) : OverlayState :=
  match s.center with
  | none => s
  | some _ =>
    let newEffs := s.effects.map (fun e => { e with progress := effProgress s now e })
    let regions := (s.effects.enum).map (fun ie => (effRect s now ie.2, ie.1))
    let still := s.effects.any (fun e => effStill s now e)
    let s1 := { s with effects := newEffs, hitRegions := regions }
    if still = false ∧ s.animTimerActive = true then
      let s2 := { s1 with animTimerActive := false }
      if s.closing then closeNow s2 else s2
    else s1

/-- The distance test of `MiddleClickOverlay._on_leave_check`.  The source
computes `dist = (dx*dx + dy*dy) ** 0.5` and tests `dist > ld`; for
`0 ≤ ld` this is exactly the squared comparison used here (the equivalence
with the square-root form is proved in the claim theorem). -/
def leaveTriggers (cur cg : ℤ × ℤ) (ld : ℤ) : Bool :=
  decide (ld * ld <
    (cur.1 - cg.1) * (cur.1 - cg.1) + (cur.2 - cg.2) * (cur.2 - cg.2))

/-- Model of `MiddleClickOverlay._on_leave_check`: a no-op when no global center is
recorded; otherwise begins closing when the pointer has moved farther than
`self._leave_distance` from the recorded global center. -/
def onLeaveCheck (now : ℚ) (cur : ℤ × ℤ) (s : OverlayState) : OverlayState :=
  match s.centerGlobal with
  | none => s
  | some cg => if leaveTriggers cur cg s.leaveDistance then startClose now s else s

/-- The UI events that can reach a live overlay between creation and
destruction: a left-button release, a repaint, and a leave-check timer
firing. -/
inductive Ev where
  | click (now : ℚ) (p : ℤ × ℤ)
  | paint (now : ℚ)
  | leaveCheck (now : ℚ) (cur : ℤ × ℤ)

/-- One event step; returns the new state and the list (empty or singleton)
of option indices whose action fired during the step. -/
def stepEv (cbs : ℕ → Option CbRes) (s : OverlayState) : Ev → OverlayState × List ℕ
  | Ev.click now p =>
      let r := mouseRelease now cbs s p
      (r.1, r.2.1.toList)
  | Ev.paint now => (paintStep now s, [])
  | Ev.leaveCheck now cur => (onLeaveCheck now cur s, [])

/-- Runs a sequence of UI events, accumulating every action firing. -/
def runEvents (cbs : ℕ → Option CbRes) (s : OverlayState) :
    List Ev → OverlayState × List ℕ
  | [] => (s, [])
  | e :: rest =>
      let r := stepEv cbs s e
      let r2 := runEvents cbs r.1 rest
      (r2.1, r.2 ++ r2.2)

/-- The process-wide single-instance registry
(`MiddleClickOverlay._active_instance`), with instances named by numbers.
`closedNow` records, most recent first, the instances closed through the
immediate `close()` path (the one `show_at` uses on a pre-empted instance,
with no exit animation). -/
structure Coord where
  active : Option ℕ
  closedNow : List ℕ
  deriving DecidableEq, Repr

/-- The registry part of `MiddleClickOverlay.closeEvent` for instance `j`:
the registry slot is cleared only when `j` is the currently registered
instance; a stale close leaves the slot alone. -/
def coordClose (st : Coord) (j : ℕ) : Coord :=
  { active := if st.active = some j then none else st.active,
    closedNow := j :: st.closedNow }

/-- The registry part of `MiddleClickOverlay.show_at` for instance `i`:
any different registered instance is first closed immediately via
`close()` (running its `closeEvent`), then `i` is registered. -/
def coordShowAt (st : Coord) (i : ℕ) : Coord :=
  let st1 := match st.active with
    | some j => if j = i then st else coordClose st j
    | none => st
  { st1 with active := some i }

/-- A state whose effects and hit regions are both empty — the shape
`closeEvent` leaves behind. -/
def cleared (s : OverlayState) : Prop := s.effects = [] ∧ s.hitRegions = []

/-- A concrete overlay state used by witness theorems: one option, one
recorded hit region, not closing, the widget's default configuration. -/
def sampleState : OverlayState :=
  { numOptions := 1
    center := some (5, 5)
    centerGlobal := some (0, 0)
    effects := [{ ex := 5, ey := 5, c := 1, s := 0, start := 0, progress := 0,
                  tw := 100, th := 36 }]
    hitRegions := [(⟨0, 0, 10, 10⟩, 0)]
    closing := false
    closingStart := none
    animInDuration := 35/100
    animOutDuration := 12/100
    animEnabled := true
    animOutEnabled := true
    animTimerActive := true
    leaveTimerActive := true
    leaveDistance := 220
    width := 640
    height := 480
    visible := true }

/-! ## Helper lemmas -/

lemma guardDur_pos (d : ℚ) : 0 < guardDur d :=
  lt_of_lt_of_le (by norm_num) (le_max_left _ _)

lemma tFrac_mono (d : ℚ) {e e' : ℚ} (h : e ≤ e') : tFrac e d ≤ tFrac e' d :=
  min_le_min le_rfl ((div_le_div_iff_of_pos_right (guardDur_pos d)).mpr h)

lemma tFrac_eq_one (d : ℚ) {e : ℚ} (h : guardDur d ≤ e) : tFrac e d = 1 :=
  min_eq_left ((one_le_div (guardDur_pos d)).mpr h)

lemma cube_le_cube {a b : ℚ} (h : a ≤ b) : a^3 ≤ b^3 := by
  nlinarith [sq_nonneg (a+b), sq_nonneg (a-b), sq_nonneg a, sq_nonneg b]

lemma showAtAngles_eq_map {K : Type} [Field K] (pi baseline : K) (n : ℕ)
    (hn : 2 ≤ n) :
    showAtAngles pi baseline n =
      (List.range n).map
        (fun (i : ℕ) => baseline - pi/2 + pi * (i : K) / ((n - 1 : ℕ) : K)) := by
  have h1 : max 1 n = n := max_eq_right (le_trans (by norm_num) hn)
  have h3 : n ≠ 1 := by omega
  simp only [showAtAngles, h1, if_neg h3]

lemma showAtAngles_getD (baseline : ℝ) (n i : ℕ) (hn : 2 ≤ n) (hi : i < n) :
    (showAtAngles Real.pi baseline n).getD i 0 =
      baseline - Real.pi/2 + Real.pi * i / ((n : ℝ) - 1) := by
  have hcast : ((n - 1 : ℕ) : ℝ) = (n : ℝ) - 1 := by
    have h4 : 1 ≤ n := by omega
    push_cast [h4]; ring

  rw [showAtAngles_eq_map _ _ _ hn]
  rw [List.getD_eq_getElem _ _ (by simpa using hi)]
  simp [hcast]

lemma nsub_one_real_ne_zero {n : ℕ} (hn : 2 ≤ n) : (n : ℝ) - 1 ≠ 0 := by
  have : (2 : ℝ) ≤ n := by exact_mod_cast hn
  linarith

lemma cleared_closeNow (s : OverlayState) : cleared (closeNow s) :=
  ⟨rfl, rfl⟩

lemma cleared_startClose {s : OverlayState} (h : cleared s) (now : ℚ) :
    cleared (startClose now s) := by
  unfold startClose
  split
  · exact h
  · split
    · exact cleared_closeNow s
    · exact h

lemma cleared_paintStep {s : OverlayState} (h : cleared s) (now : ℚ) :
    cleared (paintStep now s) := by
  obtain ⟨heff, hreg⟩ := h
  unfold paintStep
  cases s.center with
  | none => exact ⟨heff, hreg⟩
  | some c =>
      rw [heff]
      refine ⟨?_, ?_⟩ <;>
        · dsimp only
          split
          · split
            · simp [closeNow]
            · simp
          · simp

lemma cleared_onLeaveCheck {s : OverlayState} (h : cleared s) (now : ℚ)
    (cur : ℤ × ℤ) : cleared (onLeaveCheck now cur s) := by
  unfold onLeaveCheck
  cases s.centerGlobal with
  | none => exact h
  | some cg =>
      show cleared
        (if leaveTriggers cur cg s.leaveDistance = true then startClose now s else s)
      by_cases hc : leaveTriggers cur cg s.leaveDistance = true
      · rw [if_pos hc]; exact cleared_startClose h now
      · rw [if_neg hc]; exact h

lemma stepEv_cleared {s : OverlayState} (h : cleared s)
    (cbs : ℕ → Option CbRes) (e : Ev) :
    (stepEv cbs s e).2 = [] ∧ cleared (stepEv cbs s e).1 := by
  cases e with
  | click now p =>
      simp only [stepEv, mouseRelease, h.2, hitFirst]
      exact ⟨rfl, cleared_startClose h now⟩
  | paint now =>
      exact ⟨rfl, cleared_paintStep h now⟩
  | leaveCheck now cur =>
      exact ⟨rfl, cleared_onLeaveCheck h now cur⟩

lemma runEvents_cleared {s : OverlayState} (h : cleared s)
    (cbs : ℕ → Option CbRes) (evs : List Ev) :
    (runEvents cbs s evs).2 = [] := by
  induction evs generalizing s with
  | nil => rfl
  | cons e rest ih =>
      obtain ⟨h1, h2⟩ := stepEv_cleared h cbs e
      simp only [runEvents, h1, List.nil_append]
      exact ih h2

lemma stepEv_fired (cbs : ℕ → Option CbRes) (s : OverlayState) (e : Ev) :
    (stepEv cbs s e).2 = [] ∨
      ∃ i, (stepEv cbs s e).2 = [i] ∧ cleared (stepEv cbs s e).1 := by
  cases e with
  | click now p =>
      cases hh : hitFirst s.numOptions s.hitRegions p with
      | none => left; simp [stepEv, mouseRelease, hh]
      | some i =>
          right
          exact ⟨i, by simp [stepEv, mouseRelease, hh],
            by simp only [stepEv, mouseRelease, hh]; exact cleared_closeNow s⟩
  | paint now => left; rfl
  | leaveCheck now cur => left; rfl

lemma pyInt_intCast (z : ℤ) : pyInt (z : ℚ) = z := by
  unfold pyInt
  split <;> simp

lemma demoOutOfBounds_false_iff {r : IRect} {rw rh : ℤ}
    (h : demoOutOfBounds r rw rh = false) :
    demoMargin ≤ r.x ∧ demoMargin ≤ r.y ∧
      r.x + r.w ≤ rw - demoMargin ∧ r.y + r.h ≤ rh - demoMargin := by
  simp only [demoOutOfBounds, Bool.or_eq_false_iff, decide_eq_false_iff_not,
    not_lt] at h
  exact ⟨h.1.1.1, h.1.1.2, h.1.2, h.2⟩

lemma demoClampRect_id {r : IRect} {rw rh : ℤ}
    (h : demoOutOfBounds r rw rh = false) : demoClampRect r rw rh = r := by
  obtain ⟨h1, h2, h3, h4⟩ := demoOutOfBounds_false_iff h
  unfold demoClampRect
  cases r with
  | mk x y w h =>
      simp only [IRect.mk.injEq, and_true]
      refine ⟨?_, ?_⟩
      · rw [max_eq_right h1]
        exact min_eq_left (by dsimp only at h3 ⊢; omega)
      · rw [max_eq_right h2]
        exact min_eq_left (by dsimp only at h4 ⊢; omega)

lemma demoClampRect_inBounds (r : IRect) (rw rh : ℤ)
    (hw : 2 * demoMargin + r.w ≤ rw) (hh : 2 * demoMargin + r.h ≤ rh) :
    demoInBounds (demoClampRect r rw rh) rw rh := by
  unfold demoInBounds demoClampRect
  refine ⟨le_min (le_max_left _ _) (by omega), le_min (le_max_left _ _) (by omega),
    ?_, ?_⟩
  · have := min_le_right (max demoMargin r.x) (rw - demoMargin - r.w)
    dsimp only
    omega
  · have := min_le_right (max demoMargin r.y) (rh - demoMargin - r.h)
    dsimp only
    omega

lemma sq_dist_gt_iff (dx dy L : ℤ) (hL : 0 ≤ L) :
    (L * L < dx * dx + dy * dy) ↔
      ((L : ℝ) < Real.sqrt ((dx * dx + dy * dy : ℤ) : ℝ)) := by
  rw [show ((dx * dx + dy * dy : ℤ) : ℝ) = (dx:ℝ)^2 + (dy:ℝ)^2 by push_cast; ring]
  rw [Real.lt_sqrt (by exact_mod_cast hL)]
  constructor
  · intro h
    have h2 : (L:ℝ)*L < (dx:ℝ)*dx + (dy:ℝ)*dy := by exact_mod_cast h
    nlinarith
  · intro h
    have h2 : (L:ℝ)*L < (dx:ℝ)*dx + (dy:ℝ)*dy := by nlinarith
    exact_mod_cast h2

/-! ## Claim theorems -/

/-- Claim C8: while an effect is Entering with animation enabled, the tick
progress is `1 - (1-t)^3` for `t = min(1, elapsed/entry_duration)` (the
duration guarded by `max(1e-6, ·)`, which is the identity for every
duration of at least `1e-6`); over ticks with non-decreasing elapsed time
the progress is non-decreasing, and it equals exactly 1 at or after the
tick where `t` reaches 1. -/
theorem entering_progress_cubic_monotone_complete
    (d e e' : ℚ) (h : e ≤ e') :
    enteringProgress e d ≤ enteringProgress e' d ∧
    enteringProgress e d = 1 - (1 - tFrac e d)^3 ∧
    (1/1000000 ≤ d → tFrac e d = min 1 (e / d)) ∧
    (guardDur d ≤ e → enteringProgress e d = 1) := by
  refine ⟨?_, rfl, ?_, ?_⟩
  · unfold enteringProgress
    have := cube_le_cube (sub_le_sub_left (tFrac_mono d h) 1)
    linarith
  · intro hd
    unfold tFrac guardDur
    rw [max_eq_right hd]
  · intro hge
    unfold enteringProgress
    rw [tFrac_eq_one d hge]; ring

/-- Witness for C8 at entry duration 0.35 s, elapsed 0.1 s then 0.2 s. -/
theorem entering_progress_cubic_monotone_complete_witness :
    (1/10 : ℚ) ≤ 2/10 ∧
    (enteringProgress (1/10) (35/100) ≤ enteringProgress (2/10) (35/100) ∧
     enteringProgress (1/10) (35/100) = 1 - (1 - tFrac (1/10) (35/100))^3 ∧
     (1/1000000 ≤ (35/100 : ℚ) → tFrac (1/10) (35/100) = min 1 ((1/10) / (35/100))) ∧
     (guardDur (35/100) ≤ (1/10 : ℚ) → enteringProgress (1/10) (35/100) = 1)) :=
  ⟨by norm_num,
   entering_progress_cubic_monotone_complete (35/100) (1/10) (2/10) (by norm_num)⟩

/-- Claim C1 counterexample: at exit duration 0.12 s and closing elapsed 0.06 s
(`t = 1/2`), the production overlay's closing progress is `(1 - 1/2)^3 =
1/8`, whereas the claimed linear decay from a captured progress of 0.4
would give `0.4 * (1 - 1/2) = 1/5`; the two differ, so the overlay does
not compute `closing_start_progress * (1 - t)`. -/
theorem overlay_closing_not_linear_counterexample :
    closingProgressOverlay (6/100) (12/100) = 1/8 ∧
    (2/5 : ℚ) * (1 - tFrac (6/100) (12/100)) = 1/5 ∧
    closingProgressOverlay (6/100) (12/100) ≠
      (2/5 : ℚ) * (1 - tFrac (6/100) (12/100)) := by
  refine ⟨?_, ?_, ?_⟩ <;> norm_num [closingProgressOverlay, tFrac, guardDur]

/-- Claim C1 as amended: once the production overlay begins Closing with the
exit animation enabled, each tick's progress is `(max 0 (1-t))^3` with
`t = min(1, elapsed/exit_duration)` — a cubic curve that restarts from 1
regardless of the progress an effect held when closing began — and it is
non-increasing, reaching exactly 0 at or after the exit duration.  Only
the demo widget decays linearly from the captured value: its closing
progress is `max 0 (start_p * (1-t))`, which starts at the captured
`start_p` and likewise is non-increasing and reaches exactly 0 at or after
the exit duration. -/
theorem closing_progress_decay_shapes
    (p0 e e' d : ℚ) (he : e ≤ e') :
    closingProgressOverlay e' d ≤ closingProgressOverlay e d ∧
    closingProgressOverlay 0 d = 1 ∧
    (guardDur d ≤ e → closingProgressOverlay e d = 0) ∧
    (0 ≤ p0 → demoClosingProgress p0 e' d ≤ demoClosingProgress p0 e d) ∧
    (0 ≤ p0 → demoClosingProgress p0 0 d = p0) ∧
    (guardDur d ≤ e → demoClosingProgress p0 e d = 0) := by
  refine ⟨?_, ?_, ?_, ?_, ?_, ?_⟩
  · unfold closingProgressOverlay
    exact pow_le_pow_left₀ (le_max_left _ _)
      (max_le_max le_rfl (sub_le_sub_left (tFrac_mono d he) 1)) 3
  · unfold closingProgressOverlay tFrac
    rw [zero_div]; norm_num
  · intro hge
    unfold closingProgressOverlay
    rw [tFrac_eq_one d hge]; norm_num
  · intro hp
    unfold demoClosingProgress
    exact max_le_max le_rfl
      (mul_le_mul_of_nonneg_left (sub_le_sub_left (tFrac_mono d he) 1) hp)
  · intro hp
    unfold demoClosingProgress tFrac
    rw [zero_div]; norm_num [hp]
  · intro hge
    unfold demoClosingProgress
    rw [tFrac_eq_one d hge]; norm_num

/-- Witness for the amended C1 at captured progress 0.4, exit duration
0.12 s, elapsed 0.03 s then 0.06 s. -/
theorem closing_progress_decay_shapes_witness :
    (3/100 : ℚ) ≤ 6/100 ∧
    (closingProgressOverlay (6/100) (12/100) ≤ closingProgressOverlay (3/100) (12/100) ∧
     closingProgressOverlay 0 (12/100) = 1 ∧
     (guardDur (12/100) ≤ (3/100 : ℚ) → closingProgressOverlay (3/100) (12/100) = 0) ∧
     ((0 : ℚ) ≤ 2/5 →
       demoClosingProgress (2/5) (6/100) (12/100) ≤ demoClosingProgress (2/5) (3/100) (12/100)) ∧
     ((0 : ℚ) ≤ 2/5 → demoClosingProgress (2/5) 0 (12/100) = 2/5) ∧
     (guardDur (12/100) ≤ (3/100 : ℚ) → demoClosingProgress (2/5) (3/100) (12/100) = 0)) :=
  ⟨by norm_num,
   closing_progress_decay_shapes (2/5) (3/100) (6/100) (12/100) (by norm_num)⟩

/-- Claim C5: for a single option, `show_at` places it exactly on the baseline
direction (the direction from the click point toward the container's
center); for `n ≥ 2` options, the angle of option `i` is
`baseline - π/2 + π*i/(n-1)` — angles evenly spaced by `π/(n-1)`, starting
at `baseline - π/2`, ending at `baseline + π/2`, hence spanning exactly π
radians centered on the baseline. -/
theorem angles_semicircle_evenly_spaced
    (baseline : ℝ) (n i : ℕ) (hn : 2 ≤ n) (hi : i < n) :
    showAtAngles Real.pi baseline 1 = [baseline] ∧
    (showAtAngles Real.pi baseline n).length = n ∧
    (showAtAngles Real.pi baseline n).getD i 0 =
      baseline - Real.pi/2 + Real.pi * i / ((n : ℝ) - 1) ∧
    (i + 1 < n →
      (showAtAngles Real.pi baseline n).getD (i+1) 0 -
        (showAtAngles Real.pi baseline n).getD i 0 = Real.pi / ((n : ℝ) - 1)) ∧
    (showAtAngles Real.pi baseline n).getD 0 0 = baseline - Real.pi/2 ∧
    (showAtAngles Real.pi baseline n).getD (n-1) 0 = baseline + Real.pi/2 ∧
    (showAtAngles Real.pi baseline n).getD (n-1) 0 -
      (showAtAngles Real.pi baseline n).getD 0 0 = Real.pi ∧
    (showAtAngles Real.pi baseline n).getD 0 0 +
      (showAtAngles Real.pi baseline n).getD (n-1) 0 = 2 * baseline := by
  have hne := nsub_one_real_ne_zero hn
  have h0 : (showAtAngles Real.pi baseline n).getD 0 0 = baseline - Real.pi/2 := by
    rw [showAtAngles_getD baseline n 0 hn (by omega)]
    simp
  have hlast : (showAtAngles Real.pi baseline n).getD (n-1) 0 = baseline + Real.pi/2 := by
    rw [showAtAngles_getD baseline n (n-1) hn (by omega)]
    have hcast : ((n - 1 : ℕ) : ℝ) = (n : ℝ) - 1 := by
      have h4 : 1 ≤ n := by omega
      push_cast [h4]; ring
    rw [hcast]
    field_simp
    ring
  refine ⟨by simp [showAtAngles], ?_, showAtAngles_getD baseline n i hn hi, ?_,
    h0, hlast, ?_, ?_⟩
  · rw [showAtAngles_eq_map _ _ _ hn]; simp
  · intro hi1
    rw [showAtAngles_getD baseline n (i+1) hn hi1,
        showAtAngles_getD baseline n i hn hi]
    push_cast
    field_simp
    ring
  · rw [h0, hlast]; ring
  · rw [h0, hlast]; ring

/-- Witness for C5 at baseline 0 with three options, option index 1. -/
theorem angles_semicircle_evenly_spaced_witness :
    (2 ≤ 3 ∧ 1 < 3) ∧
    (showAtAngles Real.pi (0 : ℝ) 1 = [(0 : ℝ)] ∧
     (showAtAngles Real.pi (0 : ℝ) 3).length = 3 ∧
     (showAtAngles Real.pi (0 : ℝ) 3).getD 1 0 =
       0 - Real.pi/2 + Real.pi * (1 : ℕ) / ((3 : ℝ) - 1) ∧
     (1 + 1 < 3 →
       (showAtAngles Real.pi (0 : ℝ) 3).getD (1+1) 0 -
         (showAtAngles Real.pi (0 : ℝ) 3).getD 1 0 = Real.pi / ((3 : ℝ) - 1)) ∧
     (showAtAngles Real.pi (0 : ℝ) 3).getD 0 0 = 0 - Real.pi/2 ∧
     (showAtAngles Real.pi (0 : ℝ) 3).getD (3-1) 0 = 0 + Real.pi/2 ∧
     (showAtAngles Real.pi (0 : ℝ) 3).getD (3-1) 0 -
       (showAtAngles Real.pi (0 : ℝ) 3).getD 0 0 = Real.pi ∧
     (showAtAngles Real.pi (0 : ℝ) 3).getD 0 0 +
       (showAtAngles Real.pi (0 : ℝ) 3).getD (3-1) 0 = 2 * 0) :=
  ⟨⟨by norm_num, by norm_num⟩,
   angles_semicircle_evenly_spaced 0 3 1 (by norm_num) (by norm_num)⟩

/-- Claim C4 counterexample: an effect of the production overlay whose rectangle
at full progress sticks out past the right edge of a 640×480 container
(minus the fixed 12 px margin): `paintEvent` computes and uses
`(700, 222, 100, 36)` unchanged — `x + w = 800 > 640 - 12` — with no flip
of the angle and no position clamp, contradicting the claim that every
out-of-bounds rectangle is flipped or clamped into bounds at render
time. (`c = 1, s = 0` stand for `cos 0, sin 0`.) -/
theorem overlay_no_bounds_handling_counterexample :
    overlayRect 630 240 1 0 1 100 36 640 480 = ⟨700, 222, 100, 36⟩ ∧
    demoOutOfBounds ⟨700, 222, 100, 36⟩ 640 480 = true ∧
    ¬ demoInBounds (overlayRect 630 240 1 0 1 100 36 640 480) 640 480 := by
  have hbd : overlayBaseDist 640 480 = 120 := by decide
  have h1 : overlayRect 630 240 1 0 1 100 36 640 480 = ⟨700, 222, 100, 36⟩ := by
    unfold overlayRect
    rw [hbd]
    norm_num [pyInt]
  refine ⟨h1, by decide, ?_⟩
  rw [h1]
  decide

/-- Claim C4 as amended: the bounds handling exists only in the demo widget's
`paintEvent`.  There, a raw rectangle inside the container-minus-12px
bounds is used unchanged; an out-of-bounds raw rectangle is recomputed
with the angle flipped by π and the flipped position is clamped into
bounds — the clamp runs unconditionally after the flip but is the identity
whenever the flipped rectangle is already in bounds, so the position (not
the angle) is what changes on the second failure — and whenever the
rectangle fits between the margins the final rectangle is in bounds.  The
production overlay has no such handling (see the counterexample). -/
theorem demo_flip_then_clamp
    (ex ey : ℤ) (c s prog : ℚ) (tw th rw rh : ℤ)
    (hw : 2 * demoMargin + (demoRawRect ex ey c s prog tw th rw rh).w ≤ rw)
    (hh : 2 * demoMargin + (demoRawRect ex ey c s prog tw th rw rh).h ≤ rh) :
    (demoOutOfBounds (demoRawRect ex ey c s prog tw th rw rh) rw rh = false →
      demoRect ex ey c s prog tw th rw rh = demoRawRect ex ey c s prog tw th rw rh) ∧
    (demoOutOfBounds (demoRawRect ex ey c s prog tw th rw rh) rw rh = true →
      demoRect ex ey c s prog tw th rw rh =
        demoClampRect (demoFlippedRect ex ey c s prog tw th rw rh) rw rh) ∧
    (demoOutOfBounds (demoRawRect ex ey c s prog tw th rw rh) rw rh = true →
      demoOutOfBounds (demoFlippedRect ex ey c s prog tw th rw rh) rw rh = false →
      demoRect ex ey c s prog tw th rw rh =
        demoFlippedRect ex ey c s prog tw th rw rh) ∧
    (demoOutOfBounds (demoRawRect ex ey c s prog tw th rw rh) rw rh = true →
      demoInBounds (demoRect ex ey c s prog tw th rw rh) rw rh) := by
  have hflipw : (demoFlippedRect ex ey c s prog tw th rw rh).w =
      (demoRawRect ex ey c s prog tw th rw rh).w := rfl
  have hfliph : (demoFlippedRect ex ey c s prog tw th rw rh).h =
      (demoRawRect ex ey c s prog tw th rw rh).h := rfl
  refine ⟨?_, ?_, ?_, ?_⟩
  · intro h
    simp [demoRect, h]
  · intro h
    simp [demoRect, h]
  · intro h hflip
    simp [demoRect, h, demoClampRect_id hflip]
  · intro h
    have h2 : demoRect ex ey c s prog tw th rw rh =
        demoClampRect (demoFlippedRect ex ey c s prog tw th rw rh) rw rh := by
      simp [demoRect, h]
    rw [h2]
    exact demoClampRect_inBounds _ rw rh (by rw [hflipw]; exact hw)
      (by rw [hfliph]; exact hh)

/-- Witness for C4 as amended: a click near the right edge of a 640×480
demo container; the raw rectangle crosses the right margin, the flipped
rectangle lands in bounds and is used as-is. -/
theorem demo_flip_then_clamp_witness :
    (2 * demoMargin + (demoRawRect 630 240 1 0 1 84 36 640 480).w ≤ 640 ∧
     2 * demoMargin + (demoRawRect 630 240 1 0 1 84 36 640 480).h ≤ 480) ∧
    ((demoOutOfBounds (demoRawRect 630 240 1 0 1 84 36 640 480) 640 480 = false →
       demoRect 630 240 1 0 1 84 36 640 480 = demoRawRect 630 240 1 0 1 84 36 640 480) ∧
     (demoOutOfBounds (demoRawRect 630 240 1 0 1 84 36 640 480) 640 480 = true →
       demoRect 630 240 1 0 1 84 36 640 480 =
         demoClampRect (demoFlippedRect 630 240 1 0 1 84 36 640 480) 640 480) ∧
     (demoOutOfBounds (demoRawRect 630 240 1 0 1 84 36 640 480) 640 480 = true →
       demoOutOfBounds (demoFlippedRect 630 240 1 0 1 84 36 640 480) 640 480 = false →
       demoRect 630 240 1 0 1 84 36 640 480 = demoFlippedRect 630 240 1 0 1 84 36 640 480) ∧
     (demoOutOfBounds (demoRawRect 630 240 1 0 1 84 36 640 480) 640 480 = true →
       demoInBounds (demoRect 630 240 1 0 1 84 36 640 480) 640 480)) :=
  ⟨⟨by show (2 : ℤ) * demoMargin + demoSize 84 1 ≤ 640
       norm_num [demoSize, pyInt, demoMargin],
    by show (2 : ℤ) * demoMargin + demoSize 36 1 ≤ 480
       norm_num [demoSize, pyInt, demoMargin]⟩,
   demo_flip_then_clamp 630 240 1 0 1 84 36 640 480
     (by show (2 : ℤ) * demoMargin + demoSize 84 1 ≤ 640
         norm_num [demoSize, pyInt, demoMargin])
     (by show (2 : ℤ) * demoMargin + demoSize 36 1 ≤ 480
         norm_num [demoSize, pyInt, demoMargin])⟩

/-- Claim C2: across any sequence of UI events (clicks, repaints, leave checks)
delivered to an overlay, at most one option action ever fires: the click
that fires an action closes the widget on the spot, clearing its effects
and hit regions, so every later event — even a click landing on the very
same region — fires nothing. -/
theorem action_fires_at_most_once
    (cbs : ℕ → Option CbRes) (s : OverlayState) (evs : List Ev) :
    (runEvents cbs s evs).2.length ≤ 1 ∧
    (∀ now p i, (mouseRelease now cbs s p).2.1 = some i →
      (mouseRelease now cbs s p).1.effects = [] ∧
      (mouseRelease now cbs s p).1.hitRegions = [] ∧
      (mouseRelease now cbs s p).1.visible = false) := by
  constructor
  · induction evs generalizing s with
    | nil => simp [runEvents]
    | cons e rest ih =>
        have hrun : (runEvents cbs s (e :: rest)).2 =
            (stepEv cbs s e).2 ++ (runEvents cbs (stepEv cbs s e).1 rest).2 := rfl
        rw [hrun, List.length_append]
        rcases stepEv_fired cbs s e with h | ⟨i, h1, h2⟩
        · rw [h]
          simpa using ih (stepEv cbs s e).1
        · rw [h1, runEvents_cleared h2 cbs rest]
          simp
  · intro now p i hfire
    cases hh : hitFirst s.numOptions s.hitRegions p with
    | none => simp [mouseRelease, hh] at hfire
    | some j => simp [mouseRelease, hh, closeNow]

/-- Witness for C2: a concrete run in which the first click fires option 0
and a repaint plus a second click on the same spot fire nothing further. -/
theorem action_fires_at_most_once_witness :
    (runEvents (fun _ => some CbRes.ok) sampleState
        [Ev.click 0 (2, 3), Ev.paint (1/100), Ev.click (2/100) (2, 3)]).2.length ≤ 1 ∧
    (∀ now p i,
      (mouseRelease now (fun _ => some CbRes.ok) sampleState p).2.1 = some i →
      (mouseRelease now (fun _ => some CbRes.ok) sampleState p).1.effects = [] ∧
      (mouseRelease now (fun _ => some CbRes.ok) sampleState p).1.hitRegions = [] ∧
      (mouseRelease now (fun _ => some CbRes.ok) sampleState p).1.visible = false) :=
  action_fires_at_most_once (fun _ => some CbRes.ok) sampleState
    [Ev.click 0 (2, 3), Ev.paint (1/100), Ev.click (2/100) (2, 3)]

/-- Claim C6 counterexample: two overlapping hit regions, paint order index 0
then index 1, and a click at `(6, 6)` lying inside both rectangles: the
scan returns the FIRST (earlier-drawn) region's option 0, not the
later-drawn option 1 the claim promises. -/
theorem hit_order_later_drawn_counterexample :
    IRect.containsP ⟨0, 0, 10, 10⟩ (6, 6) = true ∧
    IRect.containsP ⟨5, 5, 10, 10⟩ (6, 6) = true ∧
    hitFirst 2 [(⟨0, 0, 10, 10⟩, 0), (⟨5, 5, 10, 10⟩, 1)] (6, 6) = some 0 ∧
    hitFirst 2 [(⟨0, 0, 10, 10⟩, 0), (⟨5, 5, 10, 10⟩, 1)] (6, 6) ≠ some 1 := by
  refine ⟨by decide, by decide, by decide, by decide⟩

/-- Claim C6 as amended: click handling hit-tests the point against the
last-rendered hit regions in paint order with the first match winning, so
when two rectangles overlap and the click lies in both, the EARLIER-drawn
option's action is invoked (entries whose rectangle misses the point, or
whose index is out of option range, are skipped); the fired index of a
release event is exactly this scan's result. -/
theorem hit_order_first_match_wins
    (numOpts : ℕ) (pre post : List (IRect × ℕ)) (r : IRect) (i : ℕ)
    (p : ℤ × ℤ) (now : ℚ) (cbs : ℕ → Option CbRes) (s : OverlayState)
    (hpre : ∀ q ∈ pre, ¬(q.1.containsP p = true ∧ q.2 < numOpts))
    (hr : r.containsP p = true) (hi : i < numOpts) :
    hitFirst numOpts (pre ++ (r, i) :: post) p = some i ∧
    (mouseRelease now cbs s p).2.1 = hitFirst s.numOptions s.hitRegions p := by
  constructor
  · induction pre with
    | nil => simp [hitFirst, hr, hi]
    | cons q rest ih =>
        obtain ⟨qr, qi⟩ := q
        have hq := hpre ⟨qr, qi⟩ (by simp)
        simp only [List.cons_append, hitFirst, if_neg hq]
        exact ih (fun q hq2 => hpre q (List.mem_cons_of_mem _ hq2))
  · cases hh : hitFirst s.numOptions s.hitRegions p <;>
      simp [mouseRelease, hh]

/-- Witness for C6 as amended: the middle region of three wins — the
leading region misses the point — and a release on the sample state fires
the scan's result. -/
theorem hit_order_first_match_wins_witness :
    ((∀ q ∈ [((⟨100, 100, 10, 10⟩ : IRect), 0)],
        ¬(q.1.containsP ((6 : ℤ), (6 : ℤ)) = true ∧ q.2 < 2)) ∧
      IRect.containsP ⟨5, 5, 10, 10⟩ (6, 6) = true ∧ 1 < 2) ∧
    (hitFirst 2 ([((⟨100, 100, 10, 10⟩ : IRect), 0)] ++
        (⟨5, 5, 10, 10⟩, 1) :: [((⟨0, 0, 10, 10⟩ : IRect), 0)]) (6, 6) = some 1 ∧
     (mouseRelease 0 (fun _ => some CbRes.ok) sampleState (6, 6)).2.1 =
       hitFirst sampleState.numOptions sampleState.hitRegions (6, 6)) :=
  ⟨⟨by decide, by decide, by decide⟩,
   hit_order_first_match_wins 2 [((⟨100, 100, 10, 10⟩ : IRect), 0)]
     [((⟨0, 0, 10, 10⟩ : IRect), 0)] ⟨5, 5, 10, 10⟩ 1 (6, 6) 0
     (fun _ => some CbRes.ok) sampleState (by decide) (by decide) (by decide)⟩

/-- Claim C3: showing instance `b` while a different instance `a` is registered
closes `a` through the immediate `close()` path (no exit animation, which
is what `closedNow` records) before `b` is registered; afterwards exactly
`b` is registered. A close of a stale instance `j ≠ b` does not clear the
registration of `b`. -/
theorem single_instance_registry
    (st : Coord) (a b j : ℕ) (ha : st.active = some a) (hab : a ≠ b)
    (hjb : j ≠ b) :
    (coordShowAt st b).active = some b ∧
    (coordShowAt st b).closedNow = a :: st.closedNow ∧
    (coordClose (coordShowAt st b) j).active = some b := by
  have h1 : coordShowAt st b = { active := some b, closedNow := a :: st.closedNow } := by
    simp [coordShowAt, ha, coordClose, hab]
  refine ⟨by rw [h1], by rw [h1], ?_⟩
  rw [h1]
  simp [coordClose, Ne.symm hjb]

/-- Witness for C3: instance 1 pre-empts registered instance 0; a later
stale close of instance 0 leaves instance 1 registered. -/
theorem single_instance_registry_witness :
    ((Coord.mk (some 0) []).active = some 0 ∧ 0 ≠ 1 ∧ 0 ≠ 1) ∧
    ((coordShowAt (Coord.mk (some 0) []) 1).active = some 1 ∧
     (coordShowAt (Coord.mk (some 0) []) 1).closedNow = 0 :: (Coord.mk (some 0) []).closedNow ∧
     (coordClose (coordShowAt (Coord.mk (some 0) []) 1) 0).active = some 1) :=
  ⟨⟨rfl, by decide, by decide⟩,
   single_instance_registry (Coord.mk (some 0) []) 0 1 0 rfl (by decide) (by decide)⟩

/-- Claim C7: with the default 220 px threshold, a leave check begins closing
exactly when the squared pointer-to-center distance exceeds `220²` — which,
for the source's formulation `(dx*dx + dy*dy) ** 0.5 > 220`, is the same
strict comparison against the Euclidean distance — so distance 221 triggers
and distance 219 does not; and once closing has begun a further trigger is
a no-op. -/
theorem leave_check_strict_threshold
    (s : OverlayState) (now : ℚ) (cur cg : ℤ × ℤ)
    (hcg : s.centerGlobal = some cg) (hld : s.leaveDistance = 220) :
    (leaveTriggers cur cg 220 = true ↔
      (220 : ℝ) < Real.sqrt
        (((cur.1 - cg.1) * (cur.1 - cg.1) + (cur.2 - cg.2) * (cur.2 - cg.2) : ℤ) : ℝ)) ∧
    onLeaveCheck now cur s =
      (if leaveTriggers cur cg 220 then startClose now s else s) ∧
    (s.closing = true → onLeaveCheck now cur s = s) ∧
    leaveTriggers (221, 0) (0, 0) 220 = true ∧
    leaveTriggers (219, 0) (0, 0) 220 = false := by
  have h2 : onLeaveCheck now cur s =
      (if leaveTriggers cur cg 220 then startClose now s else s) := by
    unfold onLeaveCheck
    rw [hcg, hld]
  refine ⟨?_, h2, ?_, by decide, by decide⟩
  · unfold leaveTriggers
    rw [decide_eq_true_iff]
    exact sq_dist_gt_iff _ _ 220 (by norm_num)
  · intro hclosing
    rw [h2]
    split
    · simp [startClose, hclosing]
    · rfl

/-- Witness for C7 on the sample state with the pointer at `(221, 0)` and
center `(0, 0)`. -/
theorem leave_check_strict_threshold_witness :
    (sampleState.centerGlobal = some (0, 0) ∧ sampleState.leaveDistance = 220) ∧
    ((leaveTriggers (221, 0) (0, 0) 220 = true ↔
      (220 : ℝ) < Real.sqrt
        ((((221 : ℤ) - 0) * (221 - 0) + ((0 : ℤ) - 0) * (0 - 0) : ℤ) : ℝ)) ∧
     onLeaveCheck 0 (221, 0) sampleState =
       (if leaveTriggers (221, 0) (0, 0) 220 then startClose 0 sampleState
        else sampleState) ∧
     (sampleState.closing = true → onLeaveCheck 0 (221, 0) sampleState = sampleState) ∧
     leaveTriggers (221, 0) (0, 0) 220 = true ∧
     leaveTriggers (219, 0) (0, 0) 220 = false) :=
  ⟨⟨rfl, rfl⟩,
   leave_check_strict_threshold sampleState 0 (221, 0) (0, 0) rfl rfl⟩

/-- Claim C9: when the hit-tested option's callback raises, the failure is only
logged — the resulting widget state is closed (hidden, effects and hit
regions cleared) and identical to the state produced had the callback
succeeded, and the action still counts as fired exactly for that option. -/
theorem action_failure_logged_then_closes
    (now : ℚ) (s : OverlayState) (p : ℤ × ℤ) (cbs cbs' : ℕ → Option CbRes)
    (i : ℕ) (hhit : hitFirst s.numOptions s.hitRegions p = some i)
    (hfail : cbs i = some CbRes.raised) :
    (mouseRelease now cbs s p).1 = closeNow s ∧
    (mouseRelease now cbs s p).2.1 = some i ∧
    (mouseRelease now cbs s p).2.2 = ["option callback failed"] ∧
    (mouseRelease now cbs s p).1 = (mouseRelease now cbs' s p).1 ∧
    (mouseRelease now cbs s p).1.visible = false ∧
    (mouseRelease now cbs s p).1.hitRegions = [] ∧
    (mouseRelease now cbs s p).1.effects = [] := by
  refine ⟨?_, ?_, ?_, ?_, ?_, ?_, ?_⟩ <;>
    simp [mouseRelease, hhit, hfail, closeNow]

/-- Witness for C9: a raising callback on the sample state's only option. -/
theorem action_failure_logged_then_closes_witness :
    (hitFirst sampleState.numOptions sampleState.hitRegions (2, 3) = some 0 ∧
     (fun _ : ℕ => some CbRes.raised) 0 = some CbRes.raised) ∧
    ((mouseRelease 0 (fun _ => some CbRes.raised) sampleState (2, 3)).1 =
       closeNow sampleState ∧
     (mouseRelease 0 (fun _ => some CbRes.raised) sampleState (2, 3)).2.1 = some 0 ∧
     (mouseRelease 0 (fun _ => some CbRes.raised) sampleState (2, 3)).2.2 =
       ["option callback failed"] ∧
     (mouseRelease 0 (fun _ => some CbRes.raised) sampleState (2, 3)).1 =
       (mouseRelease 0 (fun _ => some CbRes.ok) sampleState (2, 3)).1 ∧
     (mouseRelease 0 (fun _ => some CbRes.raised) sampleState (2, 3)).1.visible = false ∧
     (mouseRelease 0 (fun _ => some CbRes.raised) sampleState (2, 3)).1.hitRegions = [] ∧
     (mouseRelease 0 (fun _ => some CbRes.raised) sampleState (2, 3)).1.effects = []) :=
  ⟨⟨by decide, rfl⟩,
   action_failure_logged_then_closes 0 sampleState (2, 3)
     (fun _ => some CbRes.raised) (fun _ => some CbRes.ok) 0 (by decide) rfl⟩

/-- Claim C10: the per-tick progress computation is total for every configured
duration: the divisor `max(1e-6, d)` is positive — never zero — for every
`d`, and for a non-positive duration any elapsed time of at least `1e-6`
seconds (so in particular the first 16 ms timer tick) already yields
`t = 1`, i.e. entry progress 1 and closing progress 0. -/
theorem duration_guard_is_total (d e : ℚ) :
    0 < guardDur d ∧ guardDur d ≠ 0 ∧
    (d ≤ 0 → 1/1000000 ≤ e →
      tFrac e d = 1 ∧ enteringProgress e d = 1 ∧ closingProgressOverlay e d = 0) := by
  refine ⟨guardDur_pos d, ne_of_gt (guardDur_pos d), ?_⟩
  intro hd he
  have hg : guardDur d ≤ e := by
    unfold guardDur
    rw [max_eq_left (le_trans hd (by norm_num))]
    exact he
  refine ⟨tFrac_eq_one d hg, ?_, ?_⟩
  · unfold enteringProgress
    rw [tFrac_eq_one d hg]; ring
  · unfold closingProgressOverlay
    rw [tFrac_eq_one d hg]; norm_num

/-- Witness for C10 at duration 0 and a first 16 ms tick. -/
theorem duration_guard_is_total_witness :
    0 < guardDur 0 ∧ guardDur 0 ≠ 0 ∧
    (tFrac (16/1000) 0 = 1 ∧ enteringProgress (16/1000) 0 = 1 ∧
     closingProgressOverlay (16/1000) 0 = 0) :=
  ⟨(duration_guard_is_total 0 (16/1000)).1,
   (duration_guard_is_total 0 (16/1000)).2.1,
   (duration_guard_is_total 0 (16/1000)).2.2 (by norm_num) (by norm_num)⟩

end MiddleClick
